import Mathlib

/-!
Shallow embedding of the `label-studio-yolov5` repository
(`src/model.py` and `src/predict.py`) and proofs about its behaviour.

Python floats are modelled as rationals (`ℚ`); Python dicts that the code
reads are modelled as structures; the external world (object storage,
the detector, the Label Studio HTTP API) is modelled by outcome fields
carried on each task and by a server oracle for the paginated fetch loop.
-/

set_option autoImplicit false

namespace LSYolo

/-- One row of `model_results.pandas().xyxy[0]`: a detection produced by the
YOLOv5 model, in pixel space. -/
structure Detection where
  name : String
  confidence : ℚ
  xmin : ℚ
  ymin : ℚ
  xmax : ℚ
  ymax : ℚ
  deriving DecidableEq, Repr

/-- The `value` dict built for one detection in `Yolov5Model.predict`. -/
structure RectValue where
  rectanglelabels : List String
  x : ℚ
  y : ℚ
  width : ℚ
  height : ℚ
  deriving DecidableEq, Repr

/-- One element appended to `results` in `Yolov5Model.predict`
(the per-detection record sent to Label Studio). -/
structure ResultItem where
  from_name : String
  to_name : String
  type : String
  value : RectValue
  score : ℚ
  deriving DecidableEq, Repr

/-- The per-task dict appended to `predictions` in `Yolov5Model.predict`. -/
structure Prediction where
  result : List ResultItem
  model_version : String
  deriving DecidableEq, Repr

/-- The record built for a detection `r` in `Yolov5Model.predict`, given the
decoded image pixel dimensions `width` and `height`
(`model_results.ims[0].shape`). -/
def mkResultItem (width height : ℚ) (r : Detection) : ResultItem :=
  { from_name := "label"
    to_name := "image"
    type := "rectanglelabels"
    value :=
      { rectanglelabels := [r.name]
        x := r.xmin / width * 100
        y := r.ymin / height * 100
        width := (r.xmax - r.xmin) / width * 100
        height := (r.ymax - r.ymin) / height * 100 }
    score := r.confidence }

/-- The `for result in model_results.pandas().xyxy[0].to_dict(...)` loop of
`Yolov5Model.predict`: keep a detection exactly when
`result["confidence"] > self.confidence_threshold`. -/
def formatResults (confidence_threshold width height : ℚ) :
    List Detection → List ResultItem
  | [] => []
  | r :: rs =>
    if r.confidence > confidence_threshold then
      mkResultItem width height r :: formatResults confidence_threshold width height rs
    else
      formatResults confidence_threshold width height rs

/-- A Python value stored under the `"storage_filename"` key:
`None` or a string.  (`pyNone` and the empty string are falsy.) -/
inductive PyStr where
  | pyNone
  | pyStr (s : String)
  deriving DecidableEq, Repr

/-- Python truthiness of a `PyStr`. -/
def PyStr.truthy : PyStr → Bool
  | .pyNone => false
  | .pyStr s => !s.isEmpty

/-- Exceptions the embedded `Yolov5Model.predict` can raise. -/
inductive PyErr where
  /-- Raised by `task["storage_filename"]` with the key absent. -/
  | keyError
  /-- Raised when `FILEPATH_REGEX.match(...)` returned `None` and `.groups()` was called. -/
  | attributeError
  /-- Raised when `self.client.download_file` raised. -/
  | downloadError
  /-- Raised when `self.model(image)` (or downstream tensor handling) raised. -/
  | modelError
  deriving DecidableEq, Repr

/-- Split a character list at its first `'/'`; `none` when no `'/'` occurs.
Used to model the regex `^s3://([^/]+)/(.+)$`. -/
def splitAtFirstSlash : List Char → Option (List Char × List Char)
  | [] => none
  | c :: cs =>
    if c = '/' then some ([], cs)
    else
      match splitAtFirstSlash cs with
      | some (b, f) => some (c :: b, f)
      | none => none

/-- Matching of `FILEPATH_REGEX = re.compile(r"^s3://([^/]+)/(.+)$")` against `s`:
the bucket is the (nonempty) run of non-slash characters after `s3://`,
the filename is the (nonempty) remainder after the first slash. -/
def s3Match (s : String) : Option (String × String) :=
  if s.startsWith "s3://" then
    match splitAtFirstSlash (s.drop 5).data with
    | some (b, f) =>
      if b = [] ∨ f = [] then none
      else some (String.mk b, String.mk f)
    | none => none
  else none

/-- A Label Studio task as read by this repository, extended with the
outcome of the external world for that task (whether the object-storage
download succeeds, what the detector returns, the decoded image size). -/
structure Task where
  id : Nat
  /-- Field `task["total_predictions"]`. -/
  total_predictions : Nat
  /-- Field `task["storage_filename"]`: `none` means the key is absent from the
  dict, `some v` means the key is present with value `v`. -/
  storage_filename : Option PyStr
  /-- Field `task["data"]["image"]`. -/
  data_image : String
  /-- Whether `self.client.download_file` succeeds for this task. -/
  downloadOk : Bool
  /-- What `self.model(image)` produces for this task:
  `none` when it raises, `some dets` for the detection rows. -/
  modelDets : Option (List Detection)
  /-- Decoded image pixel width, `model_results.ims[0].shape[1]`. -/
  imgW : ℚ
  /-- Decoded image pixel height, `model_results.ims[0].shape[0]`. -/
  imgH : ℚ
  deriving DecidableEq, Repr

/-- The code of `Yolov5Model.predict` before the `try` block: choose the
bucket and filename to download.  `task["storage_filename"]` raises
`KeyError` when the key is absent; when the value is falsy the s3 regex
fallback parses `task["data"]["image"]`, raising `AttributeError` when the
regex does not match (`None.groups()`). -/
def resolveSource (bucketEnv : Option String) (task : Task) :
    Except PyErr (Option String × String) :=
  match task.storage_filename with
  | none => .error .keyError
  | some v =>
    if v.truthy then
      .ok (bucketEnv, match v with | .pyNone => "" | .pyStr s => s)
    else
      match s3Match task.data_image with
      | some (b, f) => .ok (some b, f)
      | none => .error .attributeError

/-- Result of running one iteration of the `for task in tasks` loop of
`Yolov5Model.predict`: the outcome, the final state of the temp file
`/tmp/image` (`true` = exists), and the list of `download_file` calls
made ((bucket, filename) pairs). -/
def predictTask (confidence_threshold : ℚ) (bucketEnv : Option String)
    (model_name : String) (fs : Bool) (task : Task) :
    Except PyErr Prediction × Bool × List (Option String × String) :=
  match resolveSource bucketEnv task with
  | .error e => (.error e, fs, [])
  | .ok (bucket, filename) =>
    -- the `try` block: download, run the model, format the results;
    -- the `finally` clause unlinks `/tmp/image` (missing_ok) on every exit
    if task.downloadOk then
      match task.modelDets with
      | none => (.error .modelError, false, [(bucket, filename)])
      | some dets =>
        (.ok { result := formatResults confidence_threshold task.imgW task.imgH dets
               model_version := model_name },
         false, [(bucket, filename)])
    else
      (.error .downloadError, false, [(bucket, filename)])

/-- Run of `Yolov5Model.predict` over the whole task list, threading the state of
`/tmp/image` and collecting the `download_file` calls.  A raised exception
propagates: the predictions accumulated so far are discarded. -/
def predict (confidence_threshold : ℚ) (bucketEnv : Option String)
    (model_name : String) (fs : Bool) :
    List Task → Except PyErr (List Prediction) × Bool × List (Option String × String)
  | [] => (.ok [], fs, [])
  | t :: ts =>
    match predictTask confidence_threshold bucketEnv model_name fs t with
    | (.error e, fs1, dl1) => (.error e, fs1, dl1)
    | (.ok p, fs1, dl1) =>
      match predict confidence_threshold bucketEnv model_name fs1 ts with
      | (.error e, fs2, dl2) => (.error e, fs2, dl1 ++ dl2)
      | (.ok ps, fs2, dl2) => (.ok (p :: ps), fs2, dl1 ++ dl2)

/-- Outcome of `session.post(predict_url, ...)` followed by
`resp.raise_for_status()` for one task.  `httpError` is an error status
(`requests.exceptions.HTTPError`, caught by the inner handler);
`netError` is a network failure or timeout
(`requests.exceptions.ConnectionError` / `Timeout`, NOT an `HTTPError`,
so it escapes the inner handler). -/
inductive PostOutcome where
  | success
  | httpError
  | netError
  deriving DecidableEq, Repr

/-- A task as seen by the batch runner: the task dict plus the outcome of
posting its prediction to the predictions endpoint. -/
structure RTask where
  task : Task
  postOutcome : PostOutcome
  deriving DecidableEq, Repr

/-- What happened to one task in the `for task in tasks` loop of
`create_predictions`. -/
inductive TaskAction where
  /-- Case `total_predictions != 0`: logged and skipped. -/
  | skipped
  /-- Case where `model.predict([task])` raised; logged, `continue`. -/
  | modelFailed
  /-- prediction posted, 2xx status. -/
  | posted
  /-- post answered with an error status; `HTTPError` caught and logged. -/
  | postHttpError
  /-- post hit a network failure/timeout; the exception escapes the inner
  handler, reaches the outer `except Exception`, and breaks the loop. -/
  | postNetAbort
  deriving DecidableEq, Repr

/-- Result of running the batch loop body of `create_predictions` on one
fetched page of tasks. -/
structure BatchResult where
  /-- what happened to each task reached by the loop, in order. -/
  log : List (RTask × TaskAction)
  /-- tasks for which `model.predict([task])` was invoked. -/
  modelCalls : List RTask
  /-- tasks for which a POST to the predictions endpoint was attempted. -/
  posts : List RTask
  /-- Set when an exception escaped to the outer handler, which logs it
  and breaks out of the whole `while True` loop. -/
  aborted : Bool
  /-- state of `/tmp/image` after the batch. -/
  fs : Bool
  deriving DecidableEq, Repr

/-- The `for task in tasks` loop of `create_predictions` over one page.
Tasks with `total_predictions == 0` are run through
`model.predict([task])` (exceptions caught, logged, `continue`) and their
prediction is posted (`HTTPError` caught and logged; a network failure
propagates to the outer handler, which breaks the `while` loop, so the
remaining tasks of the page are never reached).  Other tasks are skipped. -/
def processBatch (confidence_threshold : ℚ) (bucketEnv : Option String)
    (model_name : String) (fs : Bool) : List RTask → BatchResult
  | [] => { log := [], modelCalls := [], posts := [], aborted := false, fs := fs }
  | r :: rs =>
    if r.task.total_predictions = 0 then
      match predict confidence_threshold bucketEnv model_name fs [r.task] with
      | (.error _, fs1, _) =>
        let b := processBatch confidence_threshold bucketEnv model_name fs1 rs
        { b with log := (r, .modelFailed) :: b.log, modelCalls := r :: b.modelCalls }
      | (.ok _, fs1, _) =>
        match r.postOutcome with
        | .success =>
          let b := processBatch confidence_threshold bucketEnv model_name fs1 rs
          { b with log := (r, .posted) :: b.log,
                   modelCalls := r :: b.modelCalls, posts := r :: b.posts }
        | .httpError =>
          let b := processBatch confidence_threshold bucketEnv model_name fs1 rs
          { b with log := (r, .postHttpError) :: b.log,
                   modelCalls := r :: b.modelCalls, posts := r :: b.posts }
        | .netError =>
          { log := [(r, .postNetAbort)], modelCalls := [r], posts := [r],
            aborted := true, fs := fs1 }
    else
      let b := processBatch confidence_threshold bucketEnv model_name fs rs
      { b with log := (r, .skipped) :: b.log }

/-- Query parameters sent to the tasks endpoint.  The code builds
`{"page_size": ..., "project": ...}`, optionally adds `"view"`, and never
adds a `"page"` (or cursor) key. -/
structure Params where
  page_size : Nat
  project : Nat
  view : Option Nat
  page : Option Nat
  deriving DecidableEq, Repr

/-- Dict `params = {"page_size": 1, "project": project_id}` plus
`params["view"] = view_id` when a view is given (the initial
total-count request of `create_predictions`). -/
def initParams (project_id : Nat) (view_id : Option Nat) : Params :=
  { page_size := 1, project := project_id, view := view_id, page := none }

/-- The parameters used by every GET inside the `while True` loop:
`params["page_size"] = page_size` (50) mutates the same dict; no other key
is ever changed. -/
def loopParams (project_id : Nat) (view_id : Option Nat) : Params :=
  { initParams project_id view_id with page_size := 50 }

/-- Constant `page_size = 50` in `create_predictions`. -/
def pageSize : Nat := 50

/-- Outcome of one `session.get(tasks_url, params=params, timeout=10)` +
`raise_for_status` + `resp.json()["tasks"]`. -/
inductive FetchResult where
  | ok (tasks : List RTask)
  | httpFailure
  deriving Repr

/-- How the `while True` loop of `create_predictions` ended. -/
inductive LoopExit where
  /-- a fetched page had zero tasks: `break` after logging "Done". -/
  | done
  /-- an exception reached the outer handler: logged, `break`. -/
  | errorBreak
  /-- the supplied fuel ran out with the loop still running. -/
  | fuelOut
  deriving DecidableEq, Repr

/-- Observable result of the `while True` loop. -/
structure LoopResult where
  /-- every task of every fetched page, in fetch order. -/
  fetched : List RTask
  /-- the parameters of each GET issued inside the loop, in order. -/
  requests : List Params
  exit : LoopExit
  fs : Bool
  deriving Repr

/-- The `while True` loop of `create_predictions`.  `server i p` is the
response of the tasks endpoint to a GET with parameters `p` at loop
iteration `i` (the server's state may change between iterations, e.g.
because posted predictions remove tasks from a view).  `fuel` bounds the
number of iterations modelled; the code itself has no such bound. -/
def runLoop (server : Nat → Params → FetchResult)
    (confidence_threshold : ℚ) (bucketEnv : Option String)
    (model_name : String) (project_id : Nat) (view_id : Option Nat) :
    Nat → Nat → Bool → LoopResult
  | 0, _, fs => { fetched := [], requests := [], exit := .fuelOut, fs := fs }
  | fuel + 1, i, fs =>
    let p := loopParams project_id view_id
    match server i p with
    | .httpFailure => { fetched := [], requests := [p], exit := .errorBreak, fs := fs }
    | .ok [] => { fetched := [], requests := [p], exit := .done, fs := fs }
    | .ok (t :: ts) =>
      let b := processBatch confidence_threshold bucketEnv model_name fs (t :: ts)
      if b.aborted then
        { fetched := t :: ts, requests := [p], exit := .errorBreak, fs := b.fs }
      else
        let r := runLoop server confidence_threshold bucketEnv model_name
          project_id view_id fuel (i + 1) b.fs
        { fetched := (t :: ts) ++ r.fetched, requests := p :: r.requests,
          exit := r.exit, fs := r.fs }

/-- The urllib3 retry policy configured in `create_predictions`:
`Retry(total=5, backoff_factor=1, allowed_methods={"GET", "POST"})`. -/
structure RetryPolicy where
  total : Nat
  backoff_factor : ℚ
  allowed_methods : List String
  deriving DecidableEq, Repr

/-- The concrete policy the code builds. -/
def retryPolicy : RetryPolicy :=
  { total := 5, backoff_factor := 1, allowed_methods := ["GET", "POST"] }

/-- urllib3 `Retry` semantics for one request: attempt the request; on
failure, while retries remain, back off and attempt again.
`outcome k` tells whether the `k`-th attempt (0-based) succeeds.
Returns (succeeded, number of attempts made). -/
def runRetries (outcome : Nat → Bool) : Nat → Nat → Bool × Nat
  | 0, attempt =>
    if outcome attempt then (true, attempt + 1) else (false, attempt + 1)
  | r + 1, attempt =>
    if outcome attempt then (true, attempt + 1)
    else runRetries outcome r (attempt + 1)

/-- Attempts made for one GET/POST issued through the session mounted with
`HTTPAdapter(max_retries=retries)`. -/
def requestAttempts (outcome : Nat → Bool) : Nat :=
  (runRetries outcome retryPolicy.total 0).2

/-- Whether the embedded `Yolov5Model.predict` raises for a single task:
source resolution raises, or the download raises, or the model raises. -/
def taskRaises (bucketEnv : Option String) (t : Task) : Bool :=
  match resolveSource bucketEnv t with
  | .error _ => true
  | .ok _ => !t.downloadOk || t.modelDets.isNone

/-- A tasks endpoint backed by a fixed task list that never changes
(no view is used, posting predictions removes nothing): it answers every
request with the first `page_size` tasks of the list. -/
def staticServer (allTasks : List RTask) : Nat → Params → FetchResult :=
  fun _ p => .ok (allTasks.take p.page_size)

/-! Concrete fixtures used in witnesses and counterexamples. -/

/-- A concrete task record. -/
def sampleTask (idn tp : Nat) (sf : Option PyStr) (dl : Bool)
    (md : Option (List Detection)) : Task :=
  { id := idn, total_predictions := tp, storage_filename := sf,
    data_image := "s3://bkt/dir/img.jpg", downloadOk := dl,
    modelDets := md, imgW := 200, imgH := 100 }

/-- A runner task whose prediction succeeds but whose POST hits a network
failure. -/
def rNet : RTask :=
  { task := sampleTask 1 0 (some (PyStr.pyStr "a.jpg")) true (some []),
    postOutcome := .netError }

/-- A runner task that succeeds end to end. -/
def rOk : RTask :=
  { task := sampleTask 2 0 (some (PyStr.pyStr "b.jpg")) true (some []),
    postOutcome := .success }

/-- A runner task that already has a prediction. -/
def rSkip : RTask :=
  { task := sampleTask 3 1 (some (PyStr.pyStr "c.jpg")) true (some []),
    postOutcome := .success }

/-- A runner task whose model run fails (the download raises). -/
def rFail : RTask :=
  { task := sampleTask 4 0 (some (PyStr.pyStr "d.jpg")) false (some []),
    postOutcome := .success }

/-! ## Helper lemmas -/

/-- The detection-formatting loop is filter-then-map. -/
theorem formatResults_filter_map (ct W H : ℚ) (dets : List Detection) :
    formatResults ct W H dets =
      (dets.filter (fun d => decide (ct < d.confidence))).map (mkResultItem W H) := by
  induction dets with
  | nil => rfl
  | cons d ds ih =>
    by_cases h : ct < d.confidence
    · simp [formatResults, List.filter_cons, h, ih]
    · simp [formatResults, List.filter_cons, h, ih]

/-- Each retry run makes at most `r + 1` attempts beyond the start index. -/
theorem runRetries_le (outcome : Nat → Bool) :
    ∀ (r a : Nat), (runRetries outcome r a).2 ≤ a + r + 1 := by
  intro r
  induction r with
  | zero =>
    intro a
    by_cases h : outcome a = true <;> simp [runRetries, h]
  | succ r ih =>
    intro a
    by_cases h : outcome a = true
    · simp [runRetries, h]
    · have := ih (a + 1)
      simp [runRetries, h]
      omega

/-! ## Claims -/

/-- C3: `Yolov5Model.predict` keeps exactly the detections whose confidence
strictly exceeds `self.confidence_threshold`, and each kept record's score
is that detection's confidence. -/
theorem claim_C3 (confidence_threshold W H : ℚ) (dets : List Detection) :
    formatResults confidence_threshold W H dets =
      (dets.filter (fun d => decide (confidence_threshold < d.confidence))).map
        (mkResultItem W H) ∧
    ∀ d : Detection, (mkResultItem W H d).score = d.confidence :=
  ⟨formatResults_filter_map confidence_threshold W H dets, fun _ => rfl⟩

/-- C4: every record produced by `Yolov5Model.predict` carries the
pixel-space box rescaled to percentages of the decoded image dimensions. -/
theorem claim_C4 (ct W H : ℚ) (dets : List Detection) :
    ∀ a ∈ formatResults ct W H dets, ∃ d ∈ dets,
      a.value.x = d.xmin / W * 100 ∧
      a.value.y = d.ymin / H * 100 ∧
      a.value.width = (d.xmax - d.xmin) / W * 100 ∧
      a.value.height = (d.ymax - d.ymin) / H * 100 := by
  intro a ha
  rw [formatResults_filter_map] at ha
  obtain ⟨d, hd, rfl⟩ := List.mem_map.mp ha
  exact ⟨d, List.mem_of_mem_filter hd, rfl, rfl, rfl, rfl⟩

/-- Witness for C4 at a concrete detection list. -/
theorem claim_C4_witness :
    ∃ d ∈ [Detection.mk "cat" (9/10) 10 20 30 60],
      (mkResultItem 200 100 (Detection.mk "cat" (9/10) 10 20 30 60)).value.x
          = d.xmin / 200 * 100 ∧
      (mkResultItem 200 100 (Detection.mk "cat" (9/10) 10 20 30 60)).value.y
          = d.ymin / 100 * 100 ∧
      (mkResultItem 200 100 (Detection.mk "cat" (9/10) 10 20 30 60)).value.width
          = (d.xmax - d.xmin) / 200 * 100 ∧
      (mkResultItem 200 100 (Detection.mk "cat" (9/10) 10 20 30 60)).value.height
          = (d.ymax - d.ymin) / 100 * 100 :=
  claim_C4 0 200 100 [Detection.mk "cat" (9/10) 10 20 30 60]
    (mkResultItem 200 100 (Detection.mk "cat" (9/10) 10 20 30 60))
    (by
      have h : (0 : ℚ) < 9 / 10 := by norm_num
      simp [formatResults, h])

/-- C5: under normal detector output (box inside the image, positive image
dimensions) the four percentage values are each in `[0, 100]`. -/
theorem claim_C5 (W H : ℚ) (d : Detection)
    (hW : 0 < W) (hH : 0 < H)
    (hx0 : 0 ≤ d.xmin) (hx1 : d.xmin ≤ d.xmax) (hx2 : d.xmax ≤ W)
    (hy0 : 0 ≤ d.ymin) (hy1 : d.ymin ≤ d.ymax) (hy2 : d.ymax ≤ H) :
    0 ≤ (mkResultItem W H d).value.x ∧ (mkResultItem W H d).value.x ≤ 100 ∧
    0 ≤ (mkResultItem W H d).value.y ∧ (mkResultItem W H d).value.y ≤ 100 ∧
    0 ≤ (mkResultItem W H d).value.width ∧
    (mkResultItem W H d).value.width ≤ 100 ∧
    0 ≤ (mkResultItem W H d).value.height ∧
    (mkResultItem W H d).value.height ≤ 100 := by
  have hxW : d.xmin / W ≤ 1 := (div_le_one hW).mpr (le_trans hx1 hx2)
  have hyH : d.ymin / H ≤ 1 := (div_le_one hH).mpr (le_trans hy1 hy2)
  have hwW : (d.xmax - d.xmin) / W ≤ 1 := (div_le_one hW).mpr (by linarith)
  have hhH : (d.ymax - d.ymin) / H ≤ 1 := (div_le_one hH).mpr (by linarith)
  have hx : 0 ≤ d.xmin / W := div_nonneg hx0 (le_of_lt hW)
  have hy : 0 ≤ d.ymin / H := div_nonneg hy0 (le_of_lt hH)
  have hw : 0 ≤ (d.xmax - d.xmin) / W := div_nonneg (by linarith) (le_of_lt hW)
  have hh : 0 ≤ (d.ymax - d.ymin) / H := div_nonneg (by linarith) (le_of_lt hH)
  simp only [mkResultItem]
  refine ⟨by linarith, by linarith, by linarith, by linarith,
    by linarith, by linarith, by linarith, by linarith⟩

/-- Witness for C5 at a concrete in-bounds detection. -/
theorem claim_C5_witness :
    0 ≤ (mkResultItem 200 100 (Detection.mk "cat" (9/10) 10 20 30 60)).value.x ∧
    (mkResultItem 200 100 (Detection.mk "cat" (9/10) 10 20 30 60)).value.x ≤ 100 ∧
    0 ≤ (mkResultItem 200 100 (Detection.mk "cat" (9/10) 10 20 30 60)).value.y ∧
    (mkResultItem 200 100 (Detection.mk "cat" (9/10) 10 20 30 60)).value.y ≤ 100 ∧
    0 ≤ (mkResultItem 200 100 (Detection.mk "cat" (9/10) 10 20 30 60)).value.width ∧
    (mkResultItem 200 100 (Detection.mk "cat" (9/10) 10 20 30 60)).value.width ≤ 100 ∧
    0 ≤ (mkResultItem 200 100 (Detection.mk "cat" (9/10) 10 20 30 60)).value.height ∧
    (mkResultItem 200 100 (Detection.mk "cat" (9/10) 10 20 30 60)).value.height ≤ 100 :=
  claim_C5 200 100 (Detection.mk "cat" (9/10) 10 20 30 60)
    (by decide) (by decide) (by decide) (by decide) (by decide)
    (by decide) (by decide) (by decide)

/-- C8: the session's retry policy is `total=5, backoff_factor=1` for GET
and POST, and any request through it makes at most `5 + 1` attempts,
whatever the failure pattern: retry is bounded. -/
theorem claim_C8 :
    retryPolicy.total = 5 ∧ retryPolicy.backoff_factor = 1 ∧
    retryPolicy.allowed_methods = ["GET", "POST"] ∧
    ∀ outcome : Nat → Bool, requestAttempts outcome ≤ retryPolicy.total + 1 :=
  ⟨rfl, rfl, rfl, fun outcome => by
    have := runRetries_le outcome retryPolicy.total 0
    simpa [requestAttempts] using this⟩

/-- A task whose source resolved always leaves `/tmp/image` deleted:
every exit of the `try` block runs the `finally` unlink. -/
theorem predictTask_resolved_fs (ct : ℚ) (bk : Option String) (mn : String)
    (fs : Bool) (t : Task) (x : Option String × String)
    (hr : resolveSource bk t = Except.ok x) :
    (predictTask ct bk mn fs t).2.1 = false := by
  obtain ⟨b1, f1⟩ := x
  unfold predictTask
  rw [hr]
  by_cases hd : t.downloadOk
  · cases hm : t.modelDets <;> simp [hd, hm]
  · simp [hd]

/-- Starting from a deleted temp file, every task iteration leaves it
deleted. -/
theorem predictTask_fs_false (ct : ℚ) (bk : Option String) (mn : String)
    (t : Task) : (predictTask ct bk mn false t).2.1 = false := by
  unfold predictTask
  cases hr : resolveSource bk t with
  | error e => simp
  | ok x =>
    obtain ⟨b1, f1⟩ := x
    by_cases hd : t.downloadOk
    · cases hm : t.modelDets <;> simp [hd, hm]
    · simp [hd]

/-- Started with the temp file absent, `predict` never leaves it behind. -/
theorem predict_false_fs (ct : ℚ) (bk : Option String) (mn : String) :
    ∀ ts : List Task, (predict ct bk mn false ts).2.1 = false := by
  intro ts
  induction ts with
  | nil => rfl
  | cons t ts ih =>
    simp only [predict]
    rcases hp : predictTask ct bk mn false t with ⟨res, fs1, dl1⟩
    have hfs1 : fs1 = false := by
      have h := predictTask_fs_false ct bk mn t
      rw [hp] at h
      exact h
    subst hfs1
    cases res with
    | error e => simp
    | ok p =>
      rcases hq : predict ct bk mn false ts with ⟨res2, fs2, dl2⟩
      have hfs2 : fs2 = false := by
        rw [hq] at ih
        exact ih
      subst hfs2
      cases res2 <;> simp [hq]

/-- One task iteration raises exactly when `taskRaises` says so. -/
theorem predictTask_raises (ct : ℚ) (bk : Option String) (mn : String)
    (fs : Bool) (t : Task) :
    (taskRaises bk t = true → ∃ e, (predictTask ct bk mn fs t).1 = .error e) ∧
    (taskRaises bk t = false → ∃ p, (predictTask ct bk mn fs t).1 = .ok p) := by
  unfold taskRaises predictTask
  cases hr : resolveSource bk t with
  | error e => simp
  | ok x =>
    obtain ⟨b1, f1⟩ := x
    by_cases hd : t.downloadOk
    · cases hm : t.modelDets <;> simp [hd, hm]
    · simp [hd]

/-- C9: a task dict without the `"storage_filename"` key makes
`Yolov5Model.predict` raise `KeyError` before any download; the
s3-regex fallback on `task["data"]["image"]` is consulted exactly when
the key is present with a falsy value; a truthy value short-circuits to
`(self.bucket, task["storage_filename"])`. -/
theorem claim_C9 (ct : ℚ) (bk : Option String) (mn : String) (fs : Bool)
    (task : Task) :
    (task.storage_filename = none →
      resolveSource bk task = .error .keyError ∧
      predictTask ct bk mn fs task = (.error .keyError, fs, [])) ∧
    (∀ v, task.storage_filename = some v → v.truthy = false →
      resolveSource bk task =
        (match s3Match task.data_image with
         | some p => .ok (some p.1, p.2)
         | none => .error .attributeError)) ∧
    (∀ v, task.storage_filename = some v → v.truthy = true →
      resolveSource bk task =
        .ok (bk, match v with | .pyNone => "" | .pyStr s => s)) := by
  refine ⟨?_, ?_, ?_⟩
  · intro h
    have h1 : resolveSource bk task = .error .keyError := by
      simp [resolveSource, h]
    refine ⟨h1, ?_⟩
    unfold predictTask
    rw [h1]
  · intro v hv htr
    cases hs : s3Match task.data_image with
    | none => simp [resolveSource, hv, htr, hs]
    | some p =>
      obtain ⟨b1, f1⟩ := p
      simp [resolveSource, hv, htr, hs]
  · intro v hv htr
    simp [resolveSource, hv, htr]

/-- Witness for C9: a task whose dict lacks `"storage_filename"`. -/
theorem claim_C9_witness :
    resolveSource none (sampleTask 1 0 none true (some [])) = .error .keyError ∧
    predictTask 0 none "m" false (sampleTask 1 0 none true (some []))
      = (.error .keyError, false, []) :=
  (claim_C9 0 none "m" false (sampleTask 1 0 none true (some []))).1 rfl

/-- C7: as soon as a task's source resolves (so the `try` block is
entered and a download happens), the `finally` unlink guarantees that
`/tmp/image` is gone when `predict` returns or raises, whatever the
download, model, or later-task outcomes. -/
theorem claim_C7 (ct : ℚ) (bk : Option String) (mn : String) (fs : Bool)
    (t : Task) (ts : List Task)
    (h : ∃ x, resolveSource bk t = Except.ok x) :
    (predict ct bk mn fs (t :: ts)).2.1 = false := by
  obtain ⟨x, hr⟩ := h
  simp only [predict]
  rcases hp : predictTask ct bk mn fs t with ⟨res, fs1, dl1⟩
  have hfs1 : fs1 = false := by
    have h2 := predictTask_resolved_fs ct bk mn fs t x hr
    rw [hp] at h2
    exact h2
  subst hfs1
  cases res with
  | error e => simp
  | ok p =>
    rcases hq : predict ct bk mn false ts with ⟨res2, fs2, dl2⟩
    have hfs2 : fs2 = false := by
      have h3 := predict_false_fs ct bk mn ts
      rw [hq] at h3
      exact h3
    subst hfs2
    cases res2 <;> simp [hq]

/-- Witness for C7: a concrete resolved task, starting from a
pre-existing temp file. -/
theorem claim_C7_witness :
    (predict 0 none "m" true
      [sampleTask 1 0 (some (PyStr.pyStr "a.jpg")) true (some [])]).2.1 = false :=
  claim_C7 0 none "m" true
    (sampleTask 1 0 (some (PyStr.pyStr "a.jpg")) true (some [])) []
    ⟨(none, "a.jpg"), rfl⟩

/-- C10: `Yolov5Model.predict` has no per-task isolation: one raising task
makes the whole call raise, discarding every prediction already computed
for earlier tasks. -/
theorem claim_C10 (ct : ℚ) (bk : Option String) (mn : String) (fs : Bool)
    (tasks : List Task) (h : ∃ t ∈ tasks, taskRaises bk t = true) :
    ∃ e, (predict ct bk mn fs tasks).1 = Except.error e := by
  revert fs h
  induction tasks with
  | nil =>
    intro fs h
    obtain ⟨t, ht, _⟩ := h
    simp at ht
  | cons t ts ih =>
    intro fs h
    obtain ⟨u, hu, hraise⟩ := h
    simp only [predict]
    rcases hp : predictTask ct bk mn fs t with ⟨res, fs1, dl1⟩
    cases res with
    | error e => exact ⟨e, by simp⟩
    | ok p =>
      have hth : taskRaises bk t = false := by
        cases hc : taskRaises bk t with
        | false => rfl
        | true =>
          obtain ⟨e, he⟩ := (predictTask_raises ct bk mn fs t).1 hc
          rw [hp] at he
          simp at he
      have hu' : u ∈ ts := by
        rcases List.mem_cons.mp hu with h1 | h1
        · rw [h1] at hraise
          rw [hth] at hraise
          cases hraise
        · exact h1
      obtain ⟨e, he⟩ := ih fs1 ⟨u, hu', hraise⟩
      rcases hq : predict ct bk mn fs1 ts with ⟨res2, fs2, dl2⟩
      rw [hq] at he
      cases res2 with
      | error e2 => exact ⟨e2, by simp [hq]⟩
      | ok _ => simp at he

/-- Witness for C10: a successful task followed by a failing one makes the
whole `predict` call raise. -/
theorem claim_C10_witness :
    ∃ e, (predict 0 none "m" false
      [sampleTask 2 0 (some (PyStr.pyStr "b.jpg")) true (some []),
       sampleTask 4 0 (some (PyStr.pyStr "d.jpg")) false (some [])]).1
        = Except.error e :=
  claim_C10 0 none "m" false
    [sampleTask 2 0 (some (PyStr.pyStr "b.jpg")) true (some []),
     sampleTask 4 0 (some (PyStr.pyStr "d.jpg")) false (some [])]
    ⟨sampleTask 4 0 (some (PyStr.pyStr "d.jpg")) false (some []),
     by simp, rfl⟩

/-- C6: the batch loop invokes the model and posts only for tasks whose
`total_predictions` is 0; a reached task with a non-zero count is always
skipped. -/
theorem claim_C6 (ct : ℚ) (bk : Option String) (mn : String) (fs : Bool)
    (rs : List RTask) :
    (∀ r ∈ (processBatch ct bk mn fs rs).modelCalls,
        r.task.total_predictions = 0) ∧
    (∀ r ∈ (processBatch ct bk mn fs rs).posts,
        r.task.total_predictions = 0) ∧
    (∀ r a, (r, a) ∈ (processBatch ct bk mn fs rs).log →
        r.task.total_predictions ≠ 0 → a = TaskAction.skipped) := by
  revert fs
  induction rs with
  | nil =>
    intro fs
    refine ⟨?_, ?_, ?_⟩ <;> simp [processBatch]
  | cons r rs ih =>
    intro fs
    by_cases htp : r.task.total_predictions = 0
    · rcases hp : predict ct bk mn fs [r.task] with ⟨res, fs1, dl1⟩
      cases res with
      | error e =>
        obtain ⟨ih1, ih2, ih3⟩ := ih fs1
        refine ⟨?_, ?_, ?_⟩ <;> simp only [processBatch, htp, if_true, hp]
        · intro x hx
          rcases List.mem_cons.mp hx with h1 | h1
          · rw [h1]; exact htp
          · exact ih1 x h1
        · exact ih2
        · intro x a hx hne
          rcases List.mem_cons.mp hx with h1 | h1
          · exact absurd (by rw [(Prod.mk.injEq _ _ _ _).mp h1 |>.1]; exact htp) hne
          · exact ih3 x a h1 hne
      | ok ps =>
        cases hpo : r.postOutcome with
        | success =>
          obtain ⟨ih1, ih2, ih3⟩ := ih fs1
          refine ⟨?_, ?_, ?_⟩ <;> simp only [processBatch, htp, if_true, hp, hpo]
          · intro x hx
            rcases List.mem_cons.mp hx with h1 | h1
            · rw [h1]; exact htp
            · exact ih1 x h1
          · intro x hx
            rcases List.mem_cons.mp hx with h1 | h1
            · rw [h1]; exact htp
            · exact ih2 x h1
          · intro x a hx hne
            rcases List.mem_cons.mp hx with h1 | h1
            · exact absurd (by rw [(Prod.mk.injEq _ _ _ _).mp h1 |>.1]; exact htp) hne
            · exact ih3 x a h1 hne
        | httpError =>
          obtain ⟨ih1, ih2, ih3⟩ := ih fs1
          refine ⟨?_, ?_, ?_⟩ <;> simp only [processBatch, htp, if_true, hp, hpo]
          · intro x hx
            rcases List.mem_cons.mp hx with h1 | h1
            · rw [h1]; exact htp
            · exact ih1 x h1
          · intro x hx
            rcases List.mem_cons.mp hx with h1 | h1
            · rw [h1]; exact htp
            · exact ih2 x h1
          · intro x a hx hne
            rcases List.mem_cons.mp hx with h1 | h1
            · exact absurd (by rw [(Prod.mk.injEq _ _ _ _).mp h1 |>.1]; exact htp) hne
            · exact ih3 x a h1 hne
        | netError =>
          refine ⟨?_, ?_, ?_⟩ <;> simp only [processBatch, htp, if_true, hp, hpo]
          · intro x hx
            rcases List.mem_cons.mp hx with h1 | h1
            · rw [h1]; exact htp
            · simp at h1
          · intro x hx
            rcases List.mem_cons.mp hx with h1 | h1
            · rw [h1]; exact htp
            · simp at h1
          · intro x a hx hne
            rcases List.mem_cons.mp hx with h1 | h1
            · exact absurd (by rw [(Prod.mk.injEq _ _ _ _).mp h1 |>.1]; exact htp) hne
            · simp at h1
    · obtain ⟨ih1, ih2, ih3⟩ := ih fs
      refine ⟨?_, ?_, ?_⟩ <;> simp only [processBatch, htp, if_false]
      · exact ih1
      · exact ih2
      · intro x a hx hne
        rcases List.mem_cons.mp hx with h1 | h1
        · exact ((Prod.mk.injEq _ _ _ _).mp h1).2
        · exact ih3 x a h1 hne

/-- Witness for C6: a batch with one already-predicted and one fresh task. -/
theorem claim_C6_witness :
    rOk ∈ (processBatch 0 none "m" false [rSkip, rOk]).modelCalls ∧
    rOk.task.total_predictions = 0 :=
  ⟨by decide,
   (claim_C6 0 none "m" false [rSkip, rOk]).1 rOk (by decide)⟩

/-- C1 counterexample: in the batch `[rNet, rOk]` the first task's POST
hits a network failure; the exception escapes the inner
`except requests.exceptions.HTTPError` handler, reaches the outer
`except Exception`, and breaks the loop: `rOk` is never reached, so a
single failing task does skip the remaining tasks of the batch. -/
theorem claim_C1_cex :
    (processBatch 0 none "m" false [rNet, rOk]).log
        = [(rNet, TaskAction.postNetAbort)] ∧
    (processBatch 0 none "m" false [rNet, rOk]).aborted = true := by
  decide

/-- C1 (amended): as long as no POST hits a network failure or timeout,
per-task isolation does hold: model-adapter exceptions and HTTP error
responses are caught and logged, the loop reaches every task of the
batch in order, and nothing escapes to the outer handler. -/
theorem claim_C1 (ct : ℚ) (bk : Option String) (mn : String) (fs : Bool)
    (rs : List RTask)
    (h : ∀ r ∈ rs, r.postOutcome ≠ PostOutcome.netError) :
    (processBatch ct bk mn fs rs).aborted = false ∧
    (processBatch ct bk mn fs rs).log.map Prod.fst = rs := by
  revert fs h
  induction rs with
  | nil =>
    intro fs h
    exact ⟨rfl, rfl⟩
  | cons r rs ih =>
    intro fs h
    have hr : r.postOutcome ≠ PostOutcome.netError := h r (List.mem_cons_self r rs)
    have hrest : ∀ x ∈ rs, x.postOutcome ≠ PostOutcome.netError :=
      fun x hx => h x (List.mem_cons_of_mem r hx)
    by_cases htp : r.task.total_predictions = 0
    · rcases hp : predict ct bk mn fs [r.task] with ⟨res, fs1, dl1⟩
      cases res with
      | error e =>
        obtain ⟨ih1, ih2⟩ := ih fs1 hrest
        refine ⟨?_, ?_⟩ <;> simp only [processBatch, htp, if_true, hp]
        · exact ih1
        · simp [ih2]
      | ok ps =>
        cases hpo : r.postOutcome with
        | success =>
          obtain ⟨ih1, ih2⟩ := ih fs1 hrest
          refine ⟨?_, ?_⟩ <;> simp only [processBatch, htp, if_true, hp, hpo]
          · exact ih1
          · simp [ih2]
        | httpError =>
          obtain ⟨ih1, ih2⟩ := ih fs1 hrest
          refine ⟨?_, ?_⟩ <;> simp only [processBatch, htp, if_true, hp, hpo]
          · exact ih1
          · simp [ih2]
        | netError => exact absurd hpo hr
    · obtain ⟨ih1, ih2⟩ := ih fs hrest
      refine ⟨?_, ?_⟩ <;> simp only [processBatch, htp, if_false]
      · exact ih1
      · simp [ih2]

/-- Witness for the amended C1: a model failure followed by a healthy task;
both tasks are reached and the loop is not aborted. -/
theorem claim_C1_witness :
    (processBatch 0 none "m" false [rFail, rOk]).aborted = false ∧
    (processBatch 0 none "m" false [rFail, rOk]).log.map Prod.fst
        = [rFail, rOk] :=
  claim_C1 0 none "m" false [rFail, rOk] (by decide)

/-- C2 counterexample: with a static tasks endpoint holding a single task
that already has a prediction (and no view), the loop issues the
identical request (no page cursor) on every iteration, fetches the same
task again and again, and never terminates: the code does not advance
through pages and does not fetch every task exactly once. -/
theorem claim_C2_cex :
    (runLoop (staticServer [rSkip]) 0 none "m" 7 none 2 0 false).requests
        = [loopParams 7 none, loopParams 7 none] ∧
    (runLoop (staticServer [rSkip]) 0 none "m" 7 none 2 0 false).fetched
        = [rSkip, rSkip] ∧
    (runLoop (staticServer [rSkip]) 0 none "m" 7 none 2 0 false).exit
        = LoopExit.fuelOut := by
  decide

/-- C2 (amended): every GET the loop issues carries the one fixed
parameter set (`page_size = 50`, the project, the optional view, and no
page cursor), and the loop exits with "Done" only because some fetch
answered with an empty task page. -/
theorem claim_C2 (server : Nat → Params → FetchResult) (ct : ℚ)
    (bk : Option String) (mn : String) (pid : Nat) (vid : Option Nat)
    (fuel i : Nat) (fs : Bool) :
    (∀ p ∈ (runLoop server ct bk mn pid vid fuel i fs).requests,
        p = loopParams pid vid ∧ p.page = none) ∧
    ((runLoop server ct bk mn pid vid fuel i fs).exit = LoopExit.done →
      ∃ j, server j (loopParams pid vid) = FetchResult.ok []) := by
  revert i fs
  induction fuel with
  | zero =>
    intro i fs
    exact ⟨by simp [runLoop], by simp [runLoop]⟩
  | succ fuel ih =>
    intro i fs
    simp only [runLoop]
    cases hs : server i (loopParams pid vid) with
    | httpFailure =>
      refine ⟨?_, ?_⟩
      · intro p hp
        simp at hp
        exact ⟨hp, by rw [hp]; rfl⟩
      · intro hd
        simp at hd
    | ok tasks =>
      cases tasks with
      | nil =>
        refine ⟨?_, ?_⟩
        · intro p hp
          simp at hp
          exact ⟨hp, by rw [hp]; rfl⟩
        · intro _
          exact ⟨i, hs⟩
      | cons t ts =>
        by_cases hab :
            (processBatch ct bk mn fs (t :: ts)).aborted = true
        · refine ⟨?_, ?_⟩ <;> simp only [hab, if_true]
          · intro p hp
            simp at hp
            exact ⟨hp, by rw [hp]; rfl⟩
          · intro hd
            simp at hd
        · obtain ⟨ih1, ih2⟩ :=
            ih (i + 1) (processBatch ct bk mn fs (t :: ts)).fs
          have hab' : (processBatch ct bk mn fs (t :: ts)).aborted = false :=
            Bool.eq_false_iff.mpr hab
          refine ⟨?_, ?_⟩ <;> simp only [hab', if_false]
          · intro p hp
            rcases List.mem_cons.mp hp with h1 | h1
            · exact ⟨h1, by rw [h1]; rfl⟩
            · exact ih1 p h1
          · exact ih2

/-- Witness for the amended C2: a one-iteration run against an empty
project; its only request is the fixed parameter set, and the "Done"
exit is explained by an empty page. -/
theorem claim_C2_witness :
    (loopParams 7 none = loopParams 7 none ∧ (loopParams 7 none).page = none) ∧
    (∃ j, staticServer [] j (loopParams 7 none) = FetchResult.ok []) :=
  ⟨(claim_C2 (staticServer []) 0 none "m" 7 none 1 0 false).1
      (loopParams 7 none) (by decide),
   (claim_C2 (staticServer []) 0 none "m" 7 none 1 0 false).2 (by decide)⟩

end LSYolo
